import Mathlib

/-!
Verification of the MRIQC-to-NIDM BIDS app (`run.py`) against its
natural-language specification.

The development shallowly embeds the program:

* JSON documents are modelled by the inductive `Val`; a parsed metric record
  is an association list `List (String × Val)` whose order mirrors Python's
  insertion-ordered `dict`.
* POSIX paths (Python `pathlib.Path`) are modelled by their `parts` list, a
  `List String` whose first element is `"/"` for absolute paths; `parent`,
  `name`, `stem`, joining and `str()` are embedded for the operations the
  program uses.
* Fallible steps (`json.load`, `bids_meta.get` on a non-mapping,
  `path.parts[-3]` on a short path) are modelled with `Except Unit`; the
  `try/except` in `convert_json_to_csv` corresponds to the total wrapper
  returning `Bool × Option row`.
* The filesystem seen by `process_subject` is a `FS` value: the set of
  existing directories plus the JSON files available for globbing.  The
  external `csv2nidm` subprocess is an oracle `List String → List String →
  Bool` deciding, per invocation, whether it exits with status 0.
-/

namespace MriqcNidm

/-- JSON-like values as produced by `json.load`. -/
inductive Val where
  | null : Val
  | bool : Bool → Val
  | num : Int → Val
  | str : String → Val
  | arr : List Val → Val
  | obj : List (String × Val) → Val

/-- Outcome of opening and parsing one metric file: either unreadable /
malformed JSON (any `open`/`json.load` exception) or a parsed value. -/
inductive FileData where
  | malformed : FileData
  | json : Val → FileData

/-! ### Path model (the used fragment of `pathlib.PurePosixPath`) -/

/-- Split a character list on `/`, keeping empty chunks. -/
def splitSlashAux : List Char → List Char → List (List Char)
  | [], acc => [acc.reverse]
  | c :: cs, acc =>
    if c = '/' then acc.reverse :: splitSlashAux cs []
    else splitSlashAux cs (c :: acc)

/-- The non-root components of a path string: empty chunks (repeated or
trailing slashes) and `.` chunks are dropped, as `pathlib` does. -/
def rawComponents (s : String) : List String :=
  ((splitSlashAux s.toList []).filter
      (fun c => !c.isEmpty && c != ['.'])).map (fun c => String.mk c)

/-- Whether the path string is absolute. -/
def isAbsolute (s : String) : Bool :=
  match s.toList with
  | '/' :: _ => true
  | _ => false

/-- `Path(s).parts`: the root `"/"` (for absolute paths) followed by the
components. -/
def pathParts (s : String) : List String :=
  if isAbsolute s then "/" :: rawComponents s else rawComponents s

/-- `.parent` on a parts list: drops the last component, staying at the
root (or at `.`, the empty parts list) once reached. -/
def partsParent : List String → List String
  | [] => []
  | ["/"] => ["/"]
  | ps => ps.dropLast

/-- `.name` on a parts list: the final component, `""` for the root or the
empty path. -/
def partsName (ps : List String) : String :=
  match ps.getLast? with
  | none => ""
  | some n => if n = "/" then "" else n

/-- Index of the last `.` in a character list, if any. -/
def lastIndexOfDot : List Char → Option Nat
  | [] => none
  | c :: cs =>
    match lastIndexOfDot cs with
    | some i => some (i + 1)
    | none => if c = '.' then some 0 else none

/-- `pathlib` stem of a file name: the name with its suffix removed, where a
suffix requires a dot at an index `i` with `0 < i < len - 1`. -/
def fileStem (name : String) : String :=
  let cs := name.toList
  match lastIndexOfDot cs with
  | none => name
  | some i => if 0 < i ∧ i < cs.length - 1 then String.mk (cs.take i) else name

/-- Join components with `/`. -/
def joinWithSlash : List String → String
  | [] => ""
  | [p] => p
  | p :: ps => p ++ "/" ++ joinWithSlash ps

/-- `str()` of a parts list. -/
def partsToString : List String → String
  | [] => "."
  | "/" :: rest => "/" ++ joinWithSlash rest
  | ps => joinWithSlash ps

/-- `base / child` for a string child: an absolute child replaces the base,
otherwise its components are appended. -/
def pathJoin (base : List String) (child : String) : List String :=
  if isAbsolute child then pathParts child
  else base ++ rawComponents child

/-! ### Ordered-dictionary operations (Python `dict` semantics) -/

/-- `my_dict.pop(key, None)`: drop the entry with the given key, a no-op
when the key is absent. -/
def dictPop (d : List (String × Val)) (k : String) : List (String × Val) :=
  d.filter (fun p => p.1 != k)

/-- `remove_keys(my_dict, keys_to_remove)` from `run.py`: pop each listed
key in turn. -/
def remove_keys (my_dict : List (String × Val)) (keys_to_remove : List String) :
    List (String × Val) :=
  keys_to_remove.foldl dictPop my_dict

/-- `d.get(k, v)`: lookup with a default. -/
def dictGetD (d : List (String × Val)) (k : String) (v : Val) : Val :=
  match d.lookup k with
  | some w => w
  | none => v

/-- `k in d` for a dict. -/
def hasKey (d : List (String × Val)) (k : String) : Bool :=
  d.any (fun p => p.1 == k)

/-- `d[k] = v`: replace the value in place when the key exists (keeping its
position), otherwise append the new entry. -/
def dictSet (d : List (String × Val)) (k : String) (v : Val) :
    List (String × Val) :=
  if hasKey d k then d.map (fun p => if p.1 == k then (k, v) else p)
  else d ++ [(k, v)]

/-- `d.update(kvs)`: apply `dictSet` for each pair in order. -/
def dictUpdate (d : List (String × Val)) (kvs : List (String × Val)) :
    List (String × Val) :=
  kvs.foldl (fun acc kv => dictSet acc kv.1 kv.2) d

/-! ### The Record Transformer (`run.py` lines 37-111) -/

/-- `extract_metadata` from `run.py`: when a `bids_meta` mapping is present,
pull `subject`, `modality`, `datatype`, `suffix` (defaulting to `""`) into a
flat dict; with no `bids_meta` key return the empty dict.  A `bids_meta`
value that is not a mapping has no `.get`, raising (modelled as `error`). -/
def extract_metadata (data : List (String × Val)) :
    Except Unit (List (String × Val)) :=
  match data.lookup "bids_meta" with
  | none => .ok []
  | some (Val.obj bids_meta) =>
      .ok [("subject_id", dictGetD bids_meta "subject" (Val.str "")),
           ("modality", dictGetD bids_meta "modality" (Val.str "")),
           ("datatype", dictGetD bids_meta "datatype" (Val.str "")),
           ("suffix", dictGetD bids_meta "suffix" (Val.str ""))]
  | some _ => .error ()

/-- `generate_source_url` from `run.py`: `path.parts[-3]` raises
`IndexError` when the path has fewer than three parts; otherwise the result
is `str(path.parent.parent / (parts[-3] + "_" + path.stem + ".html"))`. -/
def generate_source_url (json_file : String) : Except Unit String :=
  let parts := pathParts json_file
  if parts.length < 3 then .error ()
  else
    let parent_dir := partsParent (partsParent parts)
    let subject_id := (parts.drop (parts.length - 3)).headD ""
    let html_file := subject_id ++ "_" ++ fileStem (partsName parts) ++ ".html"
    .ok (partsToString (pathJoin parent_dir html_file))

/-- The fixed deletion list of `convert_json_to_csv`. -/
def keys_to_drop : List String :=
  ["bids_meta", "provenance", "qi_1", "qi_2",
   "size_x", "size_y", "size_z",
   "spacing_x", "spacing_y", "spacing_z"]

/-- The five keys injected by `updated_data.update({...})`, in the order the
reordering step removes them from the remaining columns. -/
def injected_keys : List String :=
  ["subject_id", "ses", "task", "run", "source_url"]

/-- The success path of `convert_json_to_csv` after metadata extraction and
URL generation: delete the unwanted keys, inject the five fields, and emit
the single-row table `[subject_id, ses, task, run, <remaining>, source_url]`
as an ordered list of (column, value) pairs. -/
def normalized_row (data metadata : List (String × Val)) (url : String) :
    List (String × Val) :=
  let updated_data := dictUpdate (remove_keys data keys_to_drop)
      [("subject_id", dictGetD metadata "subject_id" (Val.str "")),
       ("ses", Val.str ""), ("task", Val.str ""), ("run", Val.str ""),
       ("source_url", Val.str url)]
  let cols := injected_keys.foldl List.erase (updated_data.map Prod.fst)
  let new_cols := ["subject_id", "ses", "task", "run"] ++ cols ++ ["source_url"]
  new_cols.map (fun c => (c, dictGetD updated_data c Val.null))

/-- The body of `convert_json_to_csv` up to the `except` handler: fails when
the file is unreadable or not a JSON mapping, when `extract_metadata`
raises, or when `generate_source_url` raises. -/
def convert_record (content : FileData) (json_file : String) :
    Except Unit (List (String × Val)) :=
  match content with
  | .json (Val.obj data) =>
    match extract_metadata data, generate_source_url json_file with
    | .ok metadata, .ok url => .ok (normalized_row data metadata url)
    | _, _ => .error ()
  | _ => .error ()

/-- `convert_json_to_csv`: every exception in the body is caught and turned
into the boolean `false` with no row written; on success the row is written
and `true` returned. -/
def convert_json_to_csv (content : FileData) (json_file : String) :
    Bool × Option (List (String × Val)) :=
  match convert_record content json_file with
  | .ok row => (true, some row)
  | .error _ => (false, none)

/-! ### The Subject Orchestrator and Run Controller (`run.py` lines 113-200) -/

/-- One JSON file on disk: its directory (as a parts list), its file name,
and what reading it yields. -/
structure JsonFile where
  dir : List String
  name : String
  content : FileData

/-- The filesystem state the orchestrator observes: which directories exist
and which JSON files globbing can find. -/
structure FS where
  dirs : List (List String)
  files : List JsonFile

/-- `s` ends with the given suffix. -/
def strEndsWith (s suffixStr : String) : Bool :=
  let a := s.toList
  let b := suffixStr.toList
  decide (b.length ≤ a.length) && (a.drop (a.length - b.length) == b)

/-- `anat_dir.glob("*.json")`: the files of the directory whose names end in
`.json`, in directory-listing order. -/
def globJson (fs : FS) (dir : List String) : List JsonFile :=
  fs.files.filter (fun f => f.dir == dir && strEndsWith f.name ".json")

/-- What one subject's run produced. -/
structure SubjectResult where
  success : Bool
  createdDirs : List (List String)
  csvFiles : List (List String × List (String × Val))
  ttlFiles : List (List String)

/-- The `for json_file in anat_dir.glob("*.json")` loop body: create the
`nidm` output directory, run the transformer, skip the file on a `false`
return, otherwise record the CSV and invoke the external converter. -/
def processFiles (nidmOk : List String → List String → Bool)
    (nidm_dir : List String) :
    List JsonFile →
      List (List String) × List (List String × List (String × Val)) ×
        List (List String)
  | [] => ([], [], [])
  | f :: rest =>
    let r := processFiles nidmOk nidm_dir rest
    let stem := fileStem f.name
    let csv_file := nidm_dir ++ [stem ++ ".csv"]
    match convert_json_to_csv f.content (partsToString (f.dir ++ [f.name])) with
    | (true, some row) =>
      let ttl_file := nidm_dir ++ [stem ++ ".ttl"]
      if nidmOk csv_file ttl_file then
        (nidm_dir :: r.1, (csv_file, row) :: r.2.1, ttl_file :: r.2.2)
      else
        (nidm_dir :: r.1, (csv_file, row) :: r.2.1, r.2.2)
    | _ => (nidm_dir :: r.1, r.2.1, r.2.2)

/-- `process_subject` from `run.py`: fail when `sub-<id>` is missing;
otherwise process `anat/*.json` when the `anat` directory exists and report
success. -/
def process_subject (fs : FS) (nidmOk : List String → List String → Bool)
    (mriqc_dir output_dir : List String) (subject_id : String) :
    SubjectResult :=
  let subject_dir := mriqc_dir ++ ["sub-" ++ subject_id]
  if fs.dirs.contains subject_dir then
    let anat_dir := subject_dir ++ ["anat"]
    if fs.dirs.contains anat_dir then
      let nidm_dir := output_dir ++ ["sub-" ++ subject_id, "nidm"]
      let r := processFiles nidmOk nidm_dir (globJson fs anat_dir)
      ⟨true, r.1, r.2.1, r.2.2⟩
    else ⟨true, [], [], []⟩
  else ⟨false, [], [], []⟩

/-- The `for subject_id in subjects` loop of `main`: process every subject,
and the run succeeds only if all did. -/
def runLoop (fs : FS) (nidmOk : List String → List String → Bool)
    (mriqc_dir output_dir : List String) :
    List String → Bool × List (String × SubjectResult)
  | [] => (true, [])
  | id :: rest =>
    let r := process_subject fs nidmOk mriqc_dir output_dir id
    let rr := runLoop fs nidmOk mriqc_dir output_dir rest
    (r.success && rr.1, (id, r) :: rr.2)

/-- The tail of `main` from the resolved subject list on: return 1 with no
processing when the list is empty, otherwise process every subject and
return 0 exactly on full success. -/
def main_run (fs : FS) (nidmOk : List String → List String → Bool)
    (mriqc_dir output_dir : List String) (subjects : List String) :
    Nat × List (String × SubjectResult) :=
  if subjects.isEmpty then (1, [])
  else
    let r := runLoop fs nidmOk mriqc_dir output_dir subjects
    (if r.1 then 0 else 1, r.2)

/-! ### Helper lemmas about the dictionary operations -/

theorem filter_true_of {α : Type} (l : List α) (q : α → Bool)
    (h : ∀ x ∈ l, q x = true) : l.filter q = l := by
  induction l with
  | nil => rfl
  | cons x xs ih =>
    simp only [List.filter_cons, h x (List.mem_cons_self x xs)]
    exact congrArg (x :: ·) (ih fun y hy => h y (List.mem_cons_of_mem x hy))

theorem keys_filter (d : List (String × Val)) (q : String → Bool) :
    (d.filter (fun p => q p.1)).map Prod.fst = (d.map Prod.fst).filter q := by
  induction d with
  | nil => rfl
  | cons p ps ih =>
    simp only [List.filter_cons, List.map_cons]
    cases hq : q p.1 <;> simp [hq, ih]

theorem not_elem_cons (x k : String) (ks : List String) :
    (!(k :: ks).contains x) = ((x != k) && !ks.contains x) := by
  rw [List.contains_cons, Bool.not_or, bne]

theorem remove_keys_eq_filter (ks : List String) (d : List (String × Val)) :
    remove_keys d ks = d.filter (fun p => !ks.contains p.1) := by
  induction ks generalizing d with
  | nil =>
    exact (filter_true_of d _ (fun x _ => rfl)).symm
  | cons k ks ih =>
    have step : remove_keys d (k :: ks) = remove_keys (dictPop d k) ks := rfl
    rw [step, ih, dictPop, List.filter_filter]
    exact List.filter_congr fun p _ => by
      rw [List.contains_cons, Bool.not_or, Bool.and_comm, bne]

theorem hasKey_iff (d : List (String × Val)) (k : String) :
    hasKey d k = true ↔ k ∈ d.map Prod.fst := by
  induction d with
  | nil => simp [hasKey]
  | cons p ps ih =>
    simp only [hasKey, List.any_cons, List.map_cons, List.mem_cons,
      Bool.or_eq_true, beq_iff_eq] at *
    constructor
    · rintro (h | h)
      · exact Or.inl h.symm
      · exact Or.inr (ih.mp h)
    · rintro (h | h)
      · exact Or.inl h.symm
      · exact Or.inr (ih.mpr h)

theorem keys_dictSet (d : List (String × Val)) (k : String) (v : Val) :
    (dictSet d k v).map Prod.fst =
      if hasKey d k then d.map Prod.fst else d.map Prod.fst ++ [k] := by
  cases hk : hasKey d k <;> simp only [dictSet, hk, if_true, if_false,
    Bool.false_eq_true, ite_false, ite_true]
  · simp
  · rw [List.map_map]
    exact List.map_congr_left fun p _ => by
      cases hp : p.1 == k <;> simp [hp, Function.comp]
      exact (eq_of_beq hp).symm

theorem nodup_keys_dictSet (d : List (String × Val)) (k : String) (v : Val)
    (h : (d.map Prod.fst).Nodup) : ((dictSet d k v).map Prod.fst).Nodup := by
  rw [keys_dictSet]
  cases hk : hasKey d k with
  | true => simpa using h
  | false =>
    have hnk : ¬ k ∈ d.map Prod.fst := fun hm => by
      rw [← hasKey_iff] at hm; rw [hk] at hm; cases hm
    simp only [Bool.false_eq_true, if_false, List.nodup_append]
    exact ⟨h, List.nodup_singleton k, by
      intro a ha hb
      simp only [List.mem_singleton] at hb
      exact hnk (hb ▸ ha)⟩

theorem nodup_keys_dictUpdate (kvs : List (String × Val))
    (d : List (String × Val)) (h : (d.map Prod.fst).Nodup) :
    ((dictUpdate d kvs).map Prod.fst).Nodup := by
  induction kvs generalizing d with
  | nil => exact h
  | cons kv kvs ih => exact ih (dictSet d kv.1 kv.2) (nodup_keys_dictSet _ _ _ h)

theorem mem_keys_dictUpdate (kvs : List (String × Val))
    (d : List (String × Val)) (x : String)
    (hx : x ∈ (dictUpdate d kvs).map Prod.fst) :
    x ∈ d.map Prod.fst ∨ x ∈ kvs.map Prod.fst := by
  induction kvs generalizing d with
  | nil => exact Or.inl hx
  | cons kv kvs ih =>
    rcases ih (dictSet d kv.1 kv.2) hx with h | h
    · rw [keys_dictSet] at h
      by_cases hk : hasKey d kv.1 = true
      · rw [if_pos hk] at h; exact Or.inl h
      · rw [if_neg hk] at h
        rcases List.mem_append.mp h with h | h
        · exact Or.inl h
        · simp only [List.mem_singleton] at h
          exact Or.inr (by simp [h])
    · exact Or.inr (List.mem_cons_of_mem _ h)

theorem filter_keys_dictUpdate (q : String → Bool) (kvs : List (String × Val))
    (d : List (String × Val)) (hq : ∀ x ∈ kvs.map Prod.fst, q x = false) :
    ((dictUpdate d kvs).map Prod.fst).filter q = (d.map Prod.fst).filter q := by
  induction kvs generalizing d with
  | nil => rfl
  | cons kv kvs ih =>
    have hstep : dictUpdate d (kv :: kvs) = dictUpdate (dictSet d kv.1 kv.2) kvs := rfl
    rw [hstep, ih _ (fun x hx => hq x (List.mem_cons_of_mem _ hx))]
    rw [keys_dictSet]
    by_cases hk : hasKey d kv.1 = true
    · rw [if_pos hk]
    · rw [if_neg hk, List.filter_append]
      have : q kv.1 = false := hq kv.1 (by simp)
      simp [List.filter_cons, this]

theorem foldl_erase_eq_filter (ks : List String) (l : List String)
    (h : l.Nodup) : ks.foldl List.erase l = l.filter (fun x => !ks.contains x) := by
  induction ks generalizing l with
  | nil => exact (filter_true_of l _ (fun x _ => rfl)).symm
  | cons k ks ih =>
    have hstep : (k :: ks).foldl List.erase l = ks.foldl List.erase (l.erase k) := rfl
    rw [hstep, ih (l.erase k) (h.erase k), h.erase_eq_filter k, List.filter_filter]
    exact List.filter_congr fun x _ => by
      rw [List.contains_cons, Bool.not_or, Bool.and_comm, bne]

theorem foldl_erase_subset (ks : List String) (l : List String) :
    ks.foldl List.erase l ⊆ l := by
  induction ks generalizing l with
  | nil => exact fun x hx => hx
  | cons k ks ih =>
    intro x hx
    exact List.erase_subset _ _ (ih (l.erase k) hx)

theorem lookup_filter_keyPred (q : String → Bool) (d : List (String × Val))
    (k : String) (h : q k = true) :
    (d.filter (fun p => q p.1)).lookup k = d.lookup k := by
  induction d with
  | nil => rfl
  | cons p ps ih =>
    by_cases hk : (k == p.1) = true
    · have hp1 : p.1 = k := (eq_of_beq hk).symm
      have hq : q p.1 = true := hp1 ▸ h
      simp [List.filter_cons, hq, List.lookup, hk]
    · cases hq : q p.1 <;>
        simp [List.filter_cons, hq, List.lookup, hk, ih]

theorem beq_symm_false {a b : String} (h : (a == b) = false) : (b == a) = false := by
  cases hba : b == a
  · rfl
  · exact absurd (beq_iff_eq.mpr (eq_of_beq hba).symm) (by simp [h])

theorem lookup_map_set_of_hasKey (k : String) (v : Val) :
    ∀ d : List (String × Val), hasKey d k = true →
      (d.map (fun p => if p.1 == k then (k, v) else p)).lookup k = some v := by
  intro d
  induction d with
  | nil => intro hk; simp [hasKey] at hk
  | cons p ps ih =>
    intro hk
    rw [List.map_cons]
    by_cases hp : (p.1 == k) = true
    · rw [if_pos hp]
      simp [List.lookup]
    · rw [if_neg hp]
      have hps : hasKey ps k = true := by
        simp only [hasKey, List.any_cons, Bool.or_eq_true] at hk
        rcases hk with h | h
        · exact absurd h hp
        · exact h
      have hne : (k == p.1) = false :=
        beq_symm_false (by cases hpk : p.1 == k; rfl; exact absurd hpk hp)
      simp only [List.lookup, hne]
      exact ih hps

theorem lookup_append_single (k : String) (v : Val) :
    ∀ d : List (String × Val), hasKey d k = false →
      (d ++ [(k, v)]).lookup k = some v := by
  intro d
  induction d with
  | nil => intro _; simp [List.lookup]
  | cons p ps ih =>
    intro hk
    simp only [hasKey, List.any_cons, Bool.or_eq_false_iff] at hk
    have hne : (k == p.1) = false := beq_symm_false hk.1
    simp only [List.cons_append, List.lookup, hne]
    exact ih hk.2

theorem lookup_map_set_ne (k k2 : String) (v : Val) (hne : (k == k2) = false) :
    ∀ d : List (String × Val),
      (d.map (fun p => if p.1 == k2 then (k2, v) else p)).lookup k = d.lookup k := by
  intro d
  induction d with
  | nil => rfl
  | cons p ps ih =>
    rw [List.map_cons]
    by_cases hp : (p.1 == k2) = true
    · rw [if_pos hp]
      have hne2 : (k == p.1) = false := by
        cases hkp : k == p.1
        · rfl
        · exact absurd (beq_iff_eq.mpr ((eq_of_beq hkp).trans (eq_of_beq hp)))
            (by simp [hne])
      simp only [List.lookup, hne, hne2]
      exact ih
    · rw [if_neg hp]
      cases hkp : k == p.1 <;> simp only [List.lookup, hkp]
      exact ih

theorem lookup_append_single_ne (k k2 : String) (v : Val)
    (hne : (k == k2) = false) :
    ∀ d : List (String × Val), (d ++ [(k2, v)]).lookup k = d.lookup k := by
  intro d
  induction d with
  | nil => simp [List.lookup, hne]
  | cons p ps ih =>
    cases hkp : k == p.1 <;> simp only [List.cons_append, List.lookup, hkp]
    exact ih

theorem lookup_dictSet_self (d : List (String × Val)) (k : String) (v : Val) :
    (dictSet d k v).lookup k = some v := by
  by_cases hk : hasKey d k = true
  · simp only [dictSet, hk, if_true]
    exact lookup_map_set_of_hasKey k v d hk
  · simp only [dictSet, hk, if_false]
    exact lookup_append_single k v d
      (by cases hq : hasKey d k; rfl; exact absurd hq hk)

theorem lookup_dictSet_ne (d : List (String × Val)) (k k2 : String) (v : Val)
    (h : k ≠ k2) : (dictSet d k2 v).lookup k = d.lookup k := by
  have hne : (k == k2) = false := by
    cases hkk : k == k2
    · rfl
    · exact absurd (eq_of_beq hkk) h
  by_cases hk : hasKey d k2 = true
  · simp only [dictSet, hk, if_true]
    exact lookup_map_set_ne k k2 v hne d
  · simp only [dictSet, hk, if_false]
    exact lookup_append_single_ne k k2 v hne d

theorem map_fst_pair (l : List String) (g : String → Val) :
    (l.map (fun c => (c, g c))).map Prod.fst = l := by
  induction l with
  | nil => rfl
  | cons c cs ih => simp [ih]

/-- The columns of the normalized row, for a record with duplicate-free keys
(the invariant of a parsed JSON object): the four injected identifiers, then
the retained keys of the source record in their original order, then
`source_url`. -/
theorem normalized_row_keys (data metadata : List (String × Val)) (url : String)
    (hnd : (data.map Prod.fst).Nodup) :
    (normalized_row data metadata url).map Prod.fst =
      ["subject_id", "ses", "task", "run"] ++
        (data.map Prod.fst).filter
          (fun k => !keys_to_drop.contains k && !injected_keys.contains k) ++
        ["source_url"] := by
  have hkeysR : (remove_keys data keys_to_drop).map Prod.fst =
      (data.map Prod.fst).filter (fun k => !keys_to_drop.contains k) := by
    rw [remove_keys_eq_filter]
    exact keys_filter data (fun k => !keys_to_drop.contains k)
  have hndR : ((remove_keys data keys_to_drop).map Prod.fst).Nodup := by
    rw [hkeysR]; exact hnd.filter _
  have hq : ∀ x ∈ ([("subject_id", dictGetD metadata "subject_id" (Val.str "")),
      ("ses", Val.str ""), ("task", Val.str ""), ("run", Val.str ""),
      ("source_url", Val.str url)].map Prod.fst),
      (!injected_keys.contains x) = false := by
    intro x hx
    simp only [List.map_cons, List.map_nil, List.mem_cons,
      List.not_mem_nil, or_false] at hx
    rcases hx with rfl | rfl | rfl | rfl | rfl <;> decide
  have hcols : injected_keys.foldl List.erase
      ((dictUpdate (remove_keys data keys_to_drop)
        [("subject_id", dictGetD metadata "subject_id" (Val.str "")),
         ("ses", Val.str ""), ("task", Val.str ""), ("run", Val.str ""),
         ("source_url", Val.str url)]).map Prod.fst) =
      (data.map Prod.fst).filter
        (fun k => !keys_to_drop.contains k && !injected_keys.contains k) := by
    rw [foldl_erase_eq_filter _ _ (nodup_keys_dictUpdate _ _ hndR),
      filter_keys_dictUpdate _ _ _ hq, hkeysR, List.filter_filter]
    exact List.filter_congr fun x _ => Bool.and_comm _ _
  simp only [normalized_row, map_fst_pair]
  rw [hcols]

/-- The `subject_id` column of the normalized row always carries
`metadata.get("subject_id", "")`. -/
theorem dictGetD_eq_of_lookup (d : List (String × Val)) (k : String)
    (v w : Val) (h : d.lookup k = some w) : dictGetD d k v = w := by
  simp [dictGetD, h]

theorem normalized_row_subject (data metadata : List (String × Val))
    (url : String) :
    (normalized_row data metadata url).lookup "subject_id" =
      some (dictGetD metadata "subject_id" (Val.str "")) := by
  have hu : (dictUpdate (remove_keys data keys_to_drop)
      [("subject_id", dictGetD metadata "subject_id" (Val.str "")),
       ("ses", Val.str ""), ("task", Val.str ""), ("run", Val.str ""),
       ("source_url", Val.str url)]).lookup "subject_id" =
      some (dictGetD metadata "subject_id" (Val.str "")) := by
    simp only [dictUpdate, List.foldl_cons, List.foldl_nil]
    rw [lookup_dictSet_ne _ _ _ _ (by decide),
      lookup_dictSet_ne _ _ _ _ (by decide),
      lookup_dictSet_ne _ _ _ _ (by decide),
      lookup_dictSet_ne _ _ _ _ (by decide),
      lookup_dictSet_self]
  simp only [normalized_row, List.cons_append, List.map_cons, List.lookup,
    beq_self_eq_true]
  exact congrArg some (dictGetD_eq_of_lookup _ _ _ _ hu)

/-- Inversion for a successful conversion of a JSON-object record. -/
theorem convert_record_obj_ok (d : List (String × Val)) (path : String)
    (row : List (String × Val))
    (h : convert_record (.json (.obj d)) path = .ok row) :
    ∃ metadata url, extract_metadata d = .ok metadata ∧
      generate_source_url path = .ok url ∧
      row = normalized_row d metadata url := by
  simp only [convert_record] at h
  cases hm : extract_metadata d with
  | error e => rw [hm] at h; cases h
  | ok metadata =>
    cases hu : generate_source_url path with
    | error e => rw [hm, hu] at h; cases h
    | ok url =>
      rw [hm, hu] at h
      injection h with h2
      exact ⟨metadata, url, rfl, rfl, h2.symm⟩

theorem mem_keys_remove_keys (d : List (String × Val)) (ks : List String)
    (x : String) (hx : x ∈ (remove_keys d ks).map Prod.fst) :
    x ∈ d.map Prod.fst ∧ (!ks.contains x) = true := by
  rw [remove_keys_eq_filter] at hx
  have := keys_filter d (fun k => !ks.contains k)
  rw [this] at hx
  exact List.mem_filter.mp hx

theorem bne_of_ne {a b : String} (h : a ≠ b) : (a != b) = true := by
  cases hab : a == b
  · simp [bne, hab]
  · exact absurd (eq_of_beq hab) h

/-- The CSV outputs of the per-file loop: exactly the successful
conversions, one per file, in glob order; failed files are skipped. -/
theorem processFiles_csv (nidmOk : List String → List String → Bool)
    (nidm_dir : List String) :
    ∀ l : List JsonFile, (processFiles nidmOk nidm_dir l).2.1 =
      l.filterMap (fun f =>
        ((convert_json_to_csv f.content (partsToString (f.dir ++ [f.name]))).2).map
          (fun row => (nidm_dir ++ [fileStem f.name ++ ".csv"], row))) := by
  intro l
  induction l with
  | nil => rfl
  | cons f rest ih =>
    cases hc : convert_record f.content (partsToString (f.dir ++ [f.name])) with
    | ok row =>
      have hcv : convert_json_to_csv f.content (partsToString (f.dir ++ [f.name])) =
          (true, some row) := by
        simp [convert_json_to_csv, hc]
      simp only [processFiles, List.filterMap_cons, hcv]
      by_cases hn : nidmOk (nidm_dir ++ [fileStem f.name ++ ".csv"])
          (nidm_dir ++ [fileStem f.name ++ ".ttl"]) = true
      · simp [hn, ih]
      · simp only [Bool.not_eq_true] at hn
        simp [hn, ih]
    | error e =>
      have hcv : convert_json_to_csv f.content (partsToString (f.dir ++ [f.name])) =
          (false, none) := by
        simp [convert_json_to_csv, hc]
      simp only [processFiles, List.filterMap_cons, hcv]
      simp [ih]

theorem runLoop_fst (fs : FS) (nidmOk : List String → List String → Bool)
    (m o : List String) :
    ∀ subjects : List String, (runLoop fs nidmOk m o subjects).1 =
      subjects.all (fun id => (process_subject fs nidmOk m o id).success) := by
  intro subjects
  induction subjects with
  | nil => rfl
  | cons id rest ih => simp [runLoop, List.all_cons, ih]

theorem runLoop_snd_map (fs : FS) (nidmOk : List String → List String → Bool)
    (m o : List String) :
    ∀ subjects : List String,
      (runLoop fs nidmOk m o subjects).2.map Prod.fst = subjects := by
  intro subjects
  induction subjects with
  | nil => rfl
  | cons id rest ih => simp [runLoop, ih]

theorem dictGetD_eq_default (d : List (String × Val)) (k : String) (v : Val)
    (h : d.lookup k = none) : dictGetD d k v = v := by
  simp [dictGetD, h]

/-! ### The claims -/

/-- C1 (amended): for every metric record with duplicate-free keys that is
successfully transformed, the normalized row's columns are exactly
`[subject_id, ses, task, run]`, then every retained metric column in the
order it appears in the mutated record (equivalently: the source-record
order), then `source_url` last, regardless of the metric-field ordering in
the source record.  (The spec's column name `session` is actually `ses` in
the code.) -/
theorem claim_C1 (d : List (String × Val)) (p : String)
    (row : List (String × Val)) (hnd : (d.map Prod.fst).Nodup)
    (h : convert_record (.json (.obj d)) p = .ok row) :
    row.map Prod.fst =
      ["subject_id", "ses", "task", "run"] ++
        (d.map Prod.fst).filter
          (fun k => !keys_to_drop.contains k && !injected_keys.contains k) ++
        ["source_url"] := by
  obtain ⟨meta, url, _, _, hrow⟩ := convert_record_obj_ok d p row h
  rw [hrow]
  exact normalized_row_keys d meta url hnd

/-- C1 witness: the record `{"cjv": 1}` at
`/out/sub-01/anat/a.json` yields the column list
`[subject_id, ses, task, run, cjv, source_url]`. -/
theorem claim_C1_witness :
    ([("subject_id", Val.str ""), ("ses", Val.str ""), ("task", Val.str ""),
      ("run", Val.str ""), ("cjv", Val.num 1),
      ("source_url", Val.str "/out/sub-01/sub-01_a.html")].map Prod.fst) =
      ["subject_id", "ses", "task", "run"] ++
        (([("cjv", Val.num 1)] : List (String × Val)).map Prod.fst).filter
          (fun k => !keys_to_drop.contains k && !injected_keys.contains k) ++
        ["source_url"] :=
  claim_C1 [("cjv", Val.num 1)] "/out/sub-01/anat/a.json"
    [("subject_id", Val.str ""), ("ses", Val.str ""), ("task", Val.str ""),
      ("run", Val.str ""), ("cjv", Val.num 1),
      ("source_url", Val.str "/out/sub-01/sub-01_a.html")]
    (by decide) (by rfl)

/-- C1 counterexample: transforming the record `{"cjv": 1}` read from
`/out/sub-01/anat/a.json` puts a column literally named `ses` — not
`session` — in second position, so the claimed column list
`[subject_id, session, task, run, cjv, source_url]` is not the produced
one. -/
theorem claim_C1_counterexample :
    convert_record (FileData.json (Val.obj [("cjv", Val.num 1)]))
        "/out/sub-01/anat/a.json" =
      .ok [("subject_id", Val.str ""), ("ses", Val.str ""),
        ("task", Val.str ""), ("run", Val.str ""), ("cjv", Val.num 1),
        ("source_url", Val.str "/out/sub-01/sub-01_a.html")] ∧
    ¬ ([("subject_id", Val.str ""), ("ses", Val.str ""),
        ("task", Val.str ""), ("run", Val.str ""), ("cjv", Val.num 1),
        ("source_url", Val.str "/out/sub-01/sub-01_a.html")].map Prod.fst =
      ["subject_id", "session", "task", "run", "cjv", "source_url"]) :=
  ⟨by rfl, by decide⟩

/-- C2: the derived source URL is computed by a pure function of the input
path (the embedding takes only the path string); on the spec's example
input `/out/sub-0051456/anat/sub-0051456_task-rest_bold.json` it equals
`/out/sub-0051456/sub-0051456_sub-0051456_task-rest_bold.html`: the parent
directory is replaced by the grandparent and the file name joins the
third-from-last path component with the stem and `.html`. -/
theorem claim_C2 :
    generate_source_url "/out/sub-0051456/anat/sub-0051456_task-rest_bold.json" =
      .ok "/out/sub-0051456/sub-0051456_sub-0051456_task-rest_bold.html" := by
  rfl

/-- C3: the normalized row never contains any of the ten dropped keys, even
when present in the input record; and removing an absent key is a no-op,
not an error. -/
theorem claim_C3 :
    (∀ (d : List (String × Val)) (p : String) (row : List (String × Val))
      (k : String), convert_record (.json (.obj d)) p = .ok row →
        k ∈ keys_to_drop → ¬ k ∈ row.map Prod.fst) ∧
    (∀ (d : List (String × Val)) (k : String), ¬ k ∈ d.map Prod.fst →
      remove_keys d [k] = d) := by
  constructor
  · intro d p row k h hk hmem
    obtain ⟨meta, url, _, _, hrow⟩ := convert_record_obj_ok d p row h
    subst hrow
    simp only [normalized_row, map_fst_pair] at hmem
    have hdisj : ∀ x ∈ keys_to_drop,
        ¬ x ∈ (["subject_id", "ses", "task", "run"] : List String) ∧
        ¬ x ∈ (["source_url"] : List String) ∧ ¬ x ∈ injected_keys := by decide
    rcases List.mem_append.mp hmem with hmem12 | hmem3
    · rcases List.mem_append.mp hmem12 with hmem1 | hmem2
      · exact (hdisj k hk).1 hmem1
      · have h1 := foldl_erase_subset _ _ hmem2
        rcases mem_keys_dictUpdate _ _ _ h1 with h2 | h2
        · obtain ⟨_, hcon⟩ := mem_keys_remove_keys d keys_to_drop k h2
          have hct : keys_to_drop.contains k = true := List.elem_iff.mpr hk
          rw [hct] at hcon
          cases hcon
        · simp only [List.map_cons, List.map_nil] at h2
          exact (hdisj k hk).2.2 h2
    · exact (hdisj k hk).2.1 hmem3
  · intro d k hk
    show dictPop d k = d
    exact filter_true_of d _ (fun p hp =>
      bne_of_ne (fun he => hk (he ▸ List.mem_map_of_mem Prod.fst hp)))

/-- C3 witness: the record `{"qi_1": 3, "cjv": 1}` yields a row without
`qi_1`; popping the absent key `bids_meta` from `{"cjv": 1}` changes
nothing. -/
theorem claim_C3_witness :
    ¬ "qi_1" ∈ ([("subject_id", Val.str ""), ("ses", Val.str ""),
        ("task", Val.str ""), ("run", Val.str ""), ("cjv", Val.num 1),
        ("source_url", Val.str "/out/sub-02/sub-02_d.html")].map Prod.fst) ∧
    remove_keys [("cjv", Val.num 1)] ["bids_meta"] = [("cjv", Val.num 1)] :=
  ⟨claim_C3.1 [("qi_1", Val.num 3), ("cjv", Val.num 1)]
      "/out/sub-02/anat/d.json"
      [("subject_id", Val.str ""), ("ses", Val.str ""), ("task", Val.str ""),
        ("run", Val.str ""), ("cjv", Val.num 1),
        ("source_url", Val.str "/out/sub-02/sub-02_d.html")]
      "qi_1" (by rfl) (by decide),
   claim_C3.2 [("cjv", Val.num 1)] "bids_meta" (by decide)⟩

/-- C7: when the nested `bids_meta` block maps `subject` to `"0001"` the
normalized row's `subject_id` column is `"0001"`; when the `subject`
sub-field is absent, or the whole `bids_meta` block is absent, the column
is the empty string. -/
theorem claim_C7 (d : List (String × Val)) (p : String)
    (row : List (String × Val))
    (h : convert_record (.json (.obj d)) p = .ok row) :
    (∀ bm : List (String × Val), d.lookup "bids_meta" = some (Val.obj bm) →
      ((bm.lookup "subject" = some (Val.str "0001") →
          row.lookup "subject_id" = some (Val.str "0001")) ∧
        (bm.lookup "subject" = none →
          row.lookup "subject_id" = some (Val.str "")))) ∧
    (d.lookup "bids_meta" = none →
      row.lookup "subject_id" = some (Val.str "")) := by
  obtain ⟨meta, url, hm, _, hrow⟩ := convert_record_obj_ok d p row h
  subst hrow
  constructor
  · intro bm hbm
    simp only [extract_metadata, hbm] at hm
    injection hm with hm2
    constructor
    · intro hs
      rw [normalized_row_subject]
      refine congrArg some ?_
      rw [← hm2]
      rw [dictGetD_eq_of_lookup _ _ _ (dictGetD bm "subject" (Val.str ""))
        (by simp [List.lookup])]
      exact dictGetD_eq_of_lookup _ _ _ _ hs
    · intro hs
      rw [normalized_row_subject]
      refine congrArg some ?_
      rw [← hm2]
      rw [dictGetD_eq_of_lookup _ _ _ (dictGetD bm "subject" (Val.str ""))
        (by simp [List.lookup])]
      exact dictGetD_eq_default _ _ _ hs
  · intro hnone
    simp only [extract_metadata, hnone] at hm
    injection hm with hm2
    rw [normalized_row_subject]
    refine congrArg some ?_
    rw [← hm2]
    rfl

/-- C7 witness: the record
`{"bids_meta": {"subject": "0001"}, "cjv": 2}` produces a row whose
`subject_id` column is `"0001"`. -/
theorem claim_C7_witness :
    ([("subject_id", Val.str "0001"), ("ses", Val.str ""),
      ("task", Val.str ""), ("run", Val.str ""), ("cjv", Val.num 2),
      ("source_url", Val.str "/out/sub-0001/sub-0001_c.html")].lookup
        "subject_id") = some (Val.str "0001") :=
  ((claim_C7 [("bids_meta", Val.obj [("subject", Val.str "0001")]),
      ("cjv", Val.num 2)] "/out/sub-0001/anat/c.json"
      [("subject_id", Val.str "0001"), ("ses", Val.str ""),
        ("task", Val.str ""), ("run", Val.str ""), ("cjv", Val.num 2),
        ("source_url", Val.str "/out/sub-0001/sub-0001_c.html")]
      (by rfl)).1 [("subject", Val.str "0001")] (by rfl)).1 (by rfl)

/-- C8 (amended): a record with duplicate-free keys whose retained
metric-field set is empty still produces a valid single-row table with
exactly the five columns `subject_id, ses, task, run, source_url`.  (The
spec's column name `session` is actually `ses` in the code.) -/
theorem claim_C8 (d : List (String × Val)) (p : String)
    (row : List (String × Val)) (hnd : (d.map Prod.fst).Nodup)
    (hempty : (d.map Prod.fst).filter
      (fun k => !keys_to_drop.contains k && !injected_keys.contains k) = [])
    (h : convert_record (.json (.obj d)) p = .ok row) :
    row.map Prod.fst = ["subject_id", "ses", "task", "run", "source_url"] := by
  obtain ⟨meta, url, _, _, hrow⟩ := convert_record_obj_ok d p row h
  rw [hrow, normalized_row_keys d meta url hnd, hempty]
  rfl

/-- C8 witness: the record `{"bids_meta": {}}` (no retained metric field)
still yields a five-column row. -/
theorem claim_C8_witness :
    ([("subject_id", Val.str ""), ("ses", Val.str ""), ("task", Val.str ""),
      ("run", Val.str ""),
      ("source_url", Val.str "/out/sub-03/sub-03_e.html")].map Prod.fst) =
      ["subject_id", "ses", "task", "run", "source_url"] :=
  claim_C8 [("bids_meta", Val.obj [])] "/out/sub-03/anat/e.json"
    [("subject_id", Val.str ""), ("ses", Val.str ""), ("task", Val.str ""),
      ("run", Val.str ""),
      ("source_url", Val.str "/out/sub-03/sub-03_e.html")]
    (by decide) (by decide) (by rfl)

/-- C8 counterexample: the metadata-only record
`{"bids_meta": {"subject": "0001"}}` read from
`/out/sub-0001/anat/b.json` yields the columns
`[subject_id, ses, task, run, source_url]`, not the claimed
`[subject_id, session, task, run, source_url]`. -/
theorem claim_C8_counterexample :
    convert_record
        (FileData.json (Val.obj [("bids_meta",
          Val.obj [("subject", Val.str "0001")])]))
        "/out/sub-0001/anat/b.json" =
      .ok [("subject_id", Val.str "0001"), ("ses", Val.str ""),
        ("task", Val.str ""), ("run", Val.str ""),
        ("source_url", Val.str "/out/sub-0001/sub-0001_b.html")] ∧
    ¬ ([("subject_id", Val.str "0001"), ("ses", Val.str ""),
        ("task", Val.str ""), ("run", Val.str ""),
        ("source_url", Val.str "/out/sub-0001/sub-0001_b.html")].map
          Prod.fst =
      ["subject_id", "session", "task", "run", "source_url"]) :=
  ⟨by rfl, by decide⟩

/-- C9: the `modality`, `datatype` and `suffix` values captured from
`bids_meta` are never injected into the row: the row carries such a column
only when the key exists as a top-level field of the input record. -/
theorem claim_C9 (d : List (String × Val)) (p : String)
    (row : List (String × Val)) (k : String)
    (h : convert_record (.json (.obj d)) p = .ok row)
    (hk : k ∈ (["modality", "datatype", "suffix"] : List String))
    (hmem : k ∈ row.map Prod.fst) : k ∈ d.map Prod.fst := by
  obtain ⟨meta, url, _, _, hrow⟩ := convert_record_obj_ok d p row h
  subst hrow
  simp only [normalized_row, map_fst_pair] at hmem
  have hdisj : ∀ x ∈ (["modality", "datatype", "suffix"] : List String),
      ¬ x ∈ (["subject_id", "ses", "task", "run"] : List String) ∧
      ¬ x ∈ (["source_url"] : List String) ∧ ¬ x ∈ injected_keys := by decide
  rcases List.mem_append.mp hmem with hmem12 | hmem3
  · rcases List.mem_append.mp hmem12 with hmem1 | hmem2
    · exact absurd hmem1 (hdisj k hk).1
    · have h1 := foldl_erase_subset _ _ hmem2
      rcases mem_keys_dictUpdate _ _ _ h1 with h2 | h2
      · exact (mem_keys_remove_keys d keys_to_drop k h2).1
      · simp only [List.map_cons, List.map_nil] at h2
        exact absurd h2 (hdisj k hk).2.2
  · exact absurd hmem3 (hdisj k hk).2.1

/-- C9 witness: the record `{"modality": "T1w"}` has a top-level
`modality` key, and its row indeed carries a `modality` column. -/
theorem claim_C9_witness :
    "modality" ∈
      (([("modality", Val.str "T1w")] : List (String × Val)).map Prod.fst) :=
  claim_C9 [("modality", Val.str "T1w")] "/out/sub-04/anat/f.json"
    [("subject_id", Val.str ""), ("ses", Val.str ""), ("task", Val.str ""),
      ("run", Val.str ""), ("modality", Val.str "T1w"),
      ("source_url", Val.str "/out/sub-04/sub-04_f.html")]
    "modality" (by rfl) (by decide) (by decide)

/-- C10: for any input whose path has fewer than three `pathlib` parts the
transformer reports boolean failure (the out-of-range `parts[-3]` access is
caught by the `except` handler) and produces no output row. -/
theorem claim_C10 (content : FileData) (p : String)
    (h : (pathParts p).length < 3) :
    convert_json_to_csv content p = (false, none) := by
  have hurl : generate_source_url p = .error () := by
    simp only [generate_source_url]
    rw [if_pos h]
  cases content with
  | malformed => rfl
  | json v =>
    cases v with
    | obj data =>
      simp only [convert_json_to_csv, convert_record]
      cases hm : extract_metadata data with
      | error e => simp [hm, hurl]
      | ok meta => simp [hm, hurl]
    | null => rfl
    | bool b => rfl
    | num n => rfl
    | str s => rfl
    | arr xs => rfl

/-- C10 witness: the two-component path `a/b.json` makes the transformer
fail and emit nothing, even for a well-formed record. -/
theorem claim_C10_witness :
    convert_json_to_csv (FileData.json (Val.obj [("cjv", Val.num 1)]))
      "a/b.json" = (false, none) :=
  claim_C10 (FileData.json (Val.obj [("cjv", Val.num 1)])) "a/b.json"
    (by decide)

/-- C4 (amended): when the subject directory `<root>/sub-<id>` itself is
absent the orchestrator reports failure (a plain return value, no
exception), performs no processing and creates no output directory; but
when the subject directory exists and only `anat/` is absent the subject is
reported as succeeded — still with no processing and no output directory
created. -/
theorem claim_C4 (fs : FS) (nidmOk : List String → List String → Bool)
    (m o : List String) (id : String) :
    (fs.dirs.contains (m ++ ["sub-" ++ id]) = false →
      process_subject fs nidmOk m o id = ⟨false, [], [], []⟩) ∧
    (fs.dirs.contains (m ++ ["sub-" ++ id]) = true →
      fs.dirs.contains (m ++ ["sub-" ++ id] ++ ["anat"]) = false →
      process_subject fs nidmOk m o id = ⟨true, [], [], []⟩) := by
  constructor
  · intro h
    simp only [process_subject]
    rw [if_neg (by rw [h]; exact Bool.false_ne_true)]
  · intro h1 h2
    simp only [process_subject]
    rw [if_pos h1, if_neg (by rw [h2]; exact Bool.false_ne_true)]

/-- C4 witness: with no directories at all, subject `001` fails with an
empty result; with only `/data/sub-001` present (no `anat`), subject `001`
succeeds with an empty result. -/
theorem claim_C4_witness :
    process_subject ⟨[], []⟩ (fun _ _ => true) ["/", "data"] ["/", "out"]
        "001" = ⟨false, [], [], []⟩ ∧
    process_subject ⟨[["/", "data", "sub-001"]], []⟩ (fun _ _ => true)
        ["/", "data"] ["/", "out"] "001" = ⟨true, [], [], []⟩ :=
  ⟨(claim_C4 ⟨[], []⟩ (fun _ _ => true) ["/", "data"] ["/", "out"] "001").1
      (by decide),
   (claim_C4 ⟨[["/", "data", "sub-001"]], []⟩ (fun _ _ => true)
      ["/", "data"] ["/", "out"] "001").2 (by decide) (by decide)⟩

/-- C4 counterexample: for the filesystem holding `/data/sub-001` but no
`/data/sub-001/anat`, the orchestrator reports `success = true`, not the
subject failure the claim requires for an absent anatomical directory. -/
theorem claim_C4_counterexample :
    (process_subject ⟨[["/", "data", "sub-001"]], []⟩ (fun _ _ => true)
        ["/", "data"] ["/", "out"] "001").success = true ∧
    ¬ (["/", "data", "sub-001", "anat"] ∈
        (⟨[["/", "data", "sub-001"]], []⟩ : FS).dirs) := by
  exact ⟨by decide, by decide⟩

/-- C5: when the subject and `anat` directories are found, the subject is
reported as succeeded, and the CSV files written are exactly the successful
per-file conversions in glob order — a file whose conversion returns the
boolean failure (e.g. malformed JSON, which the total wrapper
`convert_json_to_csv` maps to `(false, none)` instead of raising) is
skipped without aborting the remaining files. -/
theorem claim_C5 (fs : FS) (nidmOk : List String → List String → Bool)
    (m o : List String) (id : String)
    (h1 : fs.dirs.contains (m ++ ["sub-" ++ id]) = true)
    (h2 : fs.dirs.contains (m ++ ["sub-" ++ id] ++ ["anat"]) = true) :
    (process_subject fs nidmOk m o id).success = true ∧
    (process_subject fs nidmOk m o id).csvFiles =
      (globJson fs (m ++ ["sub-" ++ id] ++ ["anat"])).filterMap (fun f =>
        ((convert_json_to_csv f.content
            (partsToString (f.dir ++ [f.name]))).2).map
          (fun row =>
            (o ++ ["sub-" ++ id, "nidm"] ++ [fileStem f.name ++ ".csv"],
              row))) := by
  constructor
  · simp only [process_subject]
    rw [if_pos h1, if_pos h2]
  · simp only [process_subject]
    rw [if_pos h1, if_pos h2]
    exact processFiles_csv nidmOk (o ++ ["sub-" ++ id, "nidm"])
      (globJson fs (m ++ ["sub-" ++ id] ++ ["anat"]))

/-- C5 witness: with `bad.json` (malformed) listed before `good.json` in
`/d/sub-001/anat`, the subject succeeds and exactly one CSV — the one for
`good.json` — is produced; the malformed file is skipped. -/
theorem claim_C5_witness :
    (process_subject
        ⟨[["/", "d", "sub-001"], ["/", "d", "sub-001", "anat"]],
          [⟨["/", "d", "sub-001", "anat"], "bad.json", FileData.malformed⟩,
           ⟨["/", "d", "sub-001", "anat"], "good.json",
             FileData.json (Val.obj [("cjv", Val.num 1)])⟩]⟩
        (fun _ _ => true) ["/", "d"] ["/", "o"] "001").success = true ∧
    (process_subject
        ⟨[["/", "d", "sub-001"], ["/", "d", "sub-001", "anat"]],
          [⟨["/", "d", "sub-001", "anat"], "bad.json", FileData.malformed⟩,
           ⟨["/", "d", "sub-001", "anat"], "good.json",
             FileData.json (Val.obj [("cjv", Val.num 1)])⟩]⟩
        (fun _ _ => true) ["/", "d"] ["/", "o"] "001").csvFiles =
      [(["/", "o", "sub-001", "nidm", "good.csv"],
        [("subject_id", Val.str ""), ("ses", Val.str ""),
          ("task", Val.str ""), ("run", Val.str ""), ("cjv", Val.num 1),
          ("source_url", Val.str "/d/sub-001/sub-001_good.html")])] :=
  ⟨(claim_C5
      ⟨[["/", "d", "sub-001"], ["/", "d", "sub-001", "anat"]],
        [⟨["/", "d", "sub-001", "anat"], "bad.json", FileData.malformed⟩,
         ⟨["/", "d", "sub-001", "anat"], "good.json",
           FileData.json (Val.obj [("cjv", Val.num 1)])⟩]⟩
      (fun _ _ => true) ["/", "d"] ["/", "o"] "001" (by decide)
      (by decide)).1,
   ((claim_C5
      ⟨[["/", "d", "sub-001"], ["/", "d", "sub-001", "anat"]],
        [⟨["/", "d", "sub-001", "anat"], "bad.json", FileData.malformed⟩,
         ⟨["/", "d", "sub-001", "anat"], "good.json",
           FileData.json (Val.obj [("cjv", Val.num 1)])⟩]⟩
      (fun _ _ => true) ["/", "d"] ["/", "o"] "001" (by decide)
      (by decide)).2).trans (by rfl)⟩

/-- C6: the run's exit status is 0 exactly when the resolved subject set is
non-empty and every subject reports success; an empty subject set yields
exit status 1 with no subjects processed; and (failures notwithstanding)
every listed subject is processed, in order. -/
theorem claim_C6 (fs : FS) (nidmOk : List String → List String → Bool)
    (m o : List String) (subjects : List String) :
    ((main_run fs nidmOk m o subjects).1 = 0 ↔
      (subjects.isEmpty = false ∧
        subjects.all
          (fun id => (process_subject fs nidmOk m o id).success) = true)) ∧
    main_run fs nidmOk m o [] = (1, []) ∧
    (main_run fs nidmOk m o subjects).2.map Prod.fst =
      (if subjects.isEmpty then [] else subjects) := by
  refine ⟨?_, rfl, ?_⟩
  · by_cases he : subjects.isEmpty = true
    · simp [main_run, he]
    · simp only [Bool.not_eq_true] at he
      simp only [main_run, he, Bool.false_eq_true, if_false, runLoop_fst]
      cases hall : subjects.all
          (fun id => (process_subject fs nidmOk m o id).success) <;>
        simp [hall]
  · by_cases he : subjects.isEmpty = true
    · simp [main_run, he]
    · simp only [Bool.not_eq_true] at he
      simp [main_run, he, runLoop_snd_map]

end MriqcNidm
